import Mathlib

/-! QtEmu: the new-machine accelerator page.

A shallow embedding of `src/newmachine/acceleratorpage.cpp`.

* The `#ifdef Q_OS_...` blocks of the file become tests on a `Platform` value
  that records which of the four macros are defined.
* `Machine *machine` is shared mutable state; it is threaded explicitly:
  every constructor and slot takes the machine and returns the new machine.
* The `Machine` class and Qt's `QCheckBox` are not part of the file; what the
  file uses of them is modelled below, each with a note on where it comes from.
* Labels, layouts and `qDebug` output have no effect on the machine or on the
  checkbox and are left out.
-/

set_option autoImplicit false
set_option linter.dupNamespace false

namespace QtEmu

/-! ## Build configuration -/

/-- The platform macros the file tests with `#ifdef`; `true` means defined. -/
structure Platform where
  Q_OS_LINUX : Bool
  Q_OS_WIN : Bool
  Q_OS_MACOS : Bool
  Q_OS_FREEBSD : Bool
  deriving DecidableEq, Repr

/-- A Linux build: only `Q_OS_LINUX` is defined. -/
def Platform.linux : Platform := ⟨true, false, false, false⟩

/-- A Windows build: only `Q_OS_WIN` is defined. -/
def Platform.windows : Platform := ⟨false, true, false, false⟩

/-- A macOS build: only `Q_OS_MACOS` is defined. -/
def Platform.macos : Platform := ⟨false, false, true, false⟩

/-- A FreeBSD build: only `Q_OS_FREEBSD` is defined. -/
def Platform.freebsd : Platform := ⟨false, false, false, true⟩

/-- Any other build: none of the four macros is defined. -/
def Platform.other : Platform := ⟨false, false, false, false⟩

/-! ## The collaborator: `Machine` -/

/-- A call made on the `Machine` collaborator. -/
inductive MachineCall where
  | addAccelerator (accel : String)
  | removeAccelerator (accel : String)
  deriving DecidableEq, Repr

/-- Modelled from the spec: the `Machine` class is declared outside
`acceleratorpage.cpp`. Spec §3: it owns the accelerator selection set, a set
of accelerator identifiers (string tokens). The field `calls` is a record of
the calls received, oldest first, kept so that statements about which calls
the page makes can be written down. -/
structure Machine where
  accelerator : Finset String
  calls : List MachineCall

/-- A machine with no accelerator selected and no call received. -/
def Machine.empty : Machine := ⟨∅, []⟩

/-- Modelled from the spec: `Machine::addAccelerator` is defined outside
`acceleratorpage.cpp`. Spec §4.2 and §6: synchronous, infallible, an
idempotent set insert. -/
def Machine.addAccelerator (machine : Machine) (accel : String) : Machine :=
  ⟨insert accel machine.accelerator, machine.calls ++ [MachineCall.addAccelerator accel]⟩

/-- Modelled from the spec: `Machine::removeAccelerator` is defined outside
`acceleratorpage.cpp`. Spec §4.2 and §6: synchronous, infallible, an
idempotent set remove. -/
def Machine.removeAccelerator (machine : Machine) (accel : String) : Machine :=
  ⟨machine.accelerator.erase accel, machine.calls ++ [MachineCall.removeAccelerator accel]⟩

/-! ## Qt's check box -/

/-- The part of Qt's `QCheckBox` the file uses: the checked flag and the slots
connected to the `toggled(bool)` signal, in connection order. -/
structure QCheckBox where
  checked : Bool
  toggled : List (Bool → Machine → Machine)

/-- The call `new QCheckBox(text, parent)`: unchecked, nothing connected. -/
def QCheckBox.new : QCheckBox := ⟨false, []⟩

/-- The call `connect(check, &QAbstractButton::toggled, this, slot)`. -/
def QCheckBox.connect (check : QCheckBox) (slot : Bool → Machine → Machine) : QCheckBox :=
  ⟨check.checked, check.toggled ++ [slot]⟩

/-- The Qt method `QAbstractButton::setChecked`: nothing happens when the flag
already has the value; otherwise the flag changes and `toggled(checked)` is
emitted, which runs every connected slot with the new value. -/
def QCheckBox.setChecked (check : QCheckBox) (checked : Bool) (machine : Machine) :
    QCheckBox × Machine :=
  if check.checked = checked then (check, machine)
  else (⟨checked, check.toggled⟩, check.toggled.foldl (fun m slot => slot checked m) machine)

/-- A user click on the box, Qt's `QAbstractButton::toggle`: `setChecked(!isChecked())`. -/
def QCheckBox.toggle (check : QCheckBox) (machine : Machine) : QCheckBox × Machine :=
  check.setChecked (!check.checked) machine

/-! ## The six tabs -/

/-- The six tab classes of the file. -/
inductive Backend where
  | KVM | XEN | TCG | HAXM | HVF | WHPX
  deriving DecidableEq, Repr

/-- A tab object. The six classes have the same members: the machine pointer
(threaded as state here) and one check box (`m_kvmCheck`, `m_xenCheck`, ...).
The field `backend` records which class the object belongs to. -/
structure BackendTab where
  backend : Backend
  check : QCheckBox

/-- The slot `KVMTab::addKVMAccelerator` (lines 115-122). -/
def KVMTab.addKVMAccelerator (kvmAccelerator : Bool) (m_newMachine : Machine) : Machine :=
  if kvmAccelerator then m_newMachine.addAccelerator "kvm"
  else m_newMachine.removeAccelerator "kvm"

/-- The slot `XENTab::addXENAccelerator` (lines 169-176). -/
def XENTab.addXENAccelerator (xenAccelerator : Bool) (m_newMachine : Machine) : Machine :=
  if xenAccelerator then m_newMachine.addAccelerator "xen"
  else m_newMachine.removeAccelerator "xen"

/-- The slot `TCGTab::addTCGAccelerator` (lines 229-236). -/
def TCGTab.addTCGAccelerator (tcgAccelerator : Bool) (m_newMachine : Machine) : Machine :=
  if tcgAccelerator then m_newMachine.addAccelerator "tcg"
  else m_newMachine.removeAccelerator "tcg"

/-- The slot `HAXMTab::addHAXAccelerator` (lines 287-294). -/
def HAXMTab.addHAXAccelerator (haxAccelerator : Bool) (m_newMachine : Machine) : Machine :=
  if haxAccelerator then m_newMachine.addAccelerator "hax"
  else m_newMachine.removeAccelerator "hax"

/-- The slot `HVFTab::addHVFAccelerator` (lines 344-351). -/
def HVFTab.addHVFAccelerator (hvfAccelerator : Bool) (m_newMachine : Machine) : Machine :=
  if hvfAccelerator then m_newMachine.addAccelerator "hvf"
  else m_newMachine.removeAccelerator "hvf"

/-- The slot `WHPXTab::addWHPXAccelerator` (lines 398-405). -/
def WHPXTab.addWHPXAccelerator (hvfAccelerator : Bool) (m_newMachine : Machine) : Machine :=
  if hvfAccelerator then m_newMachine.addAccelerator "whpx"
  else m_newMachine.removeAccelerator "whpx"

/-- The constructor `KVMTab::KVMTab` (lines 77-102): the slot is called with
`true`, then the box is created, checked, and connected. -/
def KVMTab.KVMTab (machine : Machine) : BackendTab × Machine :=
  let machine := KVMTab.addKVMAccelerator true machine
  let m_kvmCheck := QCheckBox.new
  let (m_kvmCheck, machine) := m_kvmCheck.setChecked true machine
  let m_kvmCheck := m_kvmCheck.connect KVMTab.addKVMAccelerator
  (⟨Backend.KVM, m_kvmCheck⟩, machine)

/-- The constructor `XENTab::XENTab` (lines 131-156): the box is created and
connected. -/
def XENTab.XENTab (machine : Machine) : BackendTab × Machine :=
  let m_xenCheck := QCheckBox.new
  let m_xenCheck := m_xenCheck.connect XENTab.addXENAccelerator
  (⟨Backend.XEN, m_xenCheck⟩, machine)

/-- The constructor `TCGTab::TCGTab` (lines 185-216): the box is created;
under `Q_OS_FREEBSD` the slot is called with `true` and the box is checked;
then the box is connected. -/
def TCGTab.TCGTab (p : Platform) (machine : Machine) : BackendTab × Machine :=
  let m_tcgCheck := QCheckBox.new
  let (m_tcgCheck, machine) :=
    if p.Q_OS_FREEBSD then
      let machine := TCGTab.addTCGAccelerator true machine
      m_tcgCheck.setChecked true machine
    else (m_tcgCheck, machine)
  let m_tcgCheck := m_tcgCheck.connect TCGTab.addTCGAccelerator
  (⟨Backend.TCG, m_tcgCheck⟩, machine)

/-- The constructor `HAXMTab::HAXMTab` (lines 245-274): under `Q_OS_WIN` the
slot is called with `true`; then, on every platform, the box is created,
checked, and connected. -/
def HAXMTab.HAXMTab (p : Platform) (machine : Machine) : BackendTab × Machine :=
  let machine := if p.Q_OS_WIN then HAXMTab.addHAXAccelerator true machine else machine
  let m_haxmCheck := QCheckBox.new
  let (m_haxmCheck, machine) := m_haxmCheck.setChecked true machine
  let m_haxmCheck := m_haxmCheck.connect HAXMTab.addHAXAccelerator
  (⟨Backend.HAXM, m_haxmCheck⟩, machine)

/-- The constructor `HVFTab::HVFTab` (lines 303-331): under `Q_OS_MACOS` the
slot is called with `true`; then, on every platform, the box is created,
checked, and connected. -/
def HVFTab.HVFTab (p : Platform) (machine : Machine) : BackendTab × Machine :=
  let machine := if p.Q_OS_MACOS then HVFTab.addHVFAccelerator true machine else machine
  let m_hvfCheck := QCheckBox.new
  let (m_hvfCheck, machine) := m_hvfCheck.setChecked true machine
  let m_hvfCheck := m_hvfCheck.connect HVFTab.addHVFAccelerator
  (⟨Backend.HVF, m_hvfCheck⟩, machine)

/-- The constructor `WHPXTab::WHPXTab` (lines 360-385): the box is created and
connected. -/
def WHPXTab.WHPXTab (machine : Machine) : BackendTab × Machine :=
  let m_whpxCheck := QCheckBox.new
  let m_whpxCheck := m_whpxCheck.connect WHPXTab.addWHPXAccelerator
  (⟨Backend.WHPX, m_whpxCheck⟩, machine)

/-! ## The page -/

/-- Qt's `QTabWidget` as the file uses it: the pages with their labels, in
the order of the `addTab` calls. -/
abbrev QTabWidget := List (BackendTab × String)

/-- The Qt method `QTabWidget::addTab(page, label)`: appends the page. -/
def QTabWidget.addTab (w : QTabWidget) (page : BackendTab) (label : String) : QTabWidget :=
  w ++ [(page, label)]

/-- The page object: its tab widget. -/
structure MachineAcceleratorPage where
  m_acceleratorTabWidget : QTabWidget

/-- The constructor `MachineAcceleratorPage::MachineAcceleratorPage`
(lines 35-63). Each `addTab(new T(machine, this), label)` first runs the
constructor of `T` on the machine and then appends the tab. -/
def MachineAcceleratorPage.MachineAcceleratorPage (p : Platform) (machine : Machine) :
    MachineAcceleratorPage × Machine :=
  let m_acceleratorTabWidget : QTabWidget := []
  let (m_acceleratorTabWidget, machine) :=
    if p.Q_OS_LINUX then
      let (kvm, machine) := KVMTab.KVMTab machine
      let m_acceleratorTabWidget := m_acceleratorTabWidget.addTab kvm "KVM"
      let (xen, machine) := XENTab.XENTab machine
      (m_acceleratorTabWidget.addTab xen "XEN", machine)
    else (m_acceleratorTabWidget, machine)
  let (m_acceleratorTabWidget, machine) :=
    if p.Q_OS_WIN then
      let (haxm, machine) := HAXMTab.HAXMTab p machine
      let m_acceleratorTabWidget := m_acceleratorTabWidget.addTab haxm "HAXM"
      let (whpx, machine) := WHPXTab.WHPXTab machine
      (m_acceleratorTabWidget.addTab whpx "WHPX", machine)
    else (m_acceleratorTabWidget, machine)
  let (m_acceleratorTabWidget, machine) :=
    if p.Q_OS_MACOS then
      let (hvf, machine) := HVFTab.HVFTab p machine
      (m_acceleratorTabWidget.addTab hvf "HVF", machine)
    else (m_acceleratorTabWidget, machine)
  let (tcg, machine) := TCGTab.TCGTab p machine
  let m_acceleratorTabWidget := m_acceleratorTabWidget.addTab tcg "TCG"
  (⟨m_acceleratorTabWidget⟩, machine)

/-! ## Helpers for stating the properties -/

/-- The identifier a tab class passes to the machine (the string literal in
its slot). -/
def Backend.identifier : Backend → String
  | Backend.KVM => "kvm"
  | Backend.XEN => "xen"
  | Backend.TCG => "tcg"
  | Backend.HAXM => "hax"
  | Backend.HVF => "hvf"
  | Backend.WHPX => "whpx"

/-- The slot of a tab class. -/
def Backend.slot : Backend → Bool → Machine → Machine
  | Backend.KVM => KVMTab.addKVMAccelerator
  | Backend.XEN => XENTab.addXENAccelerator
  | Backend.TCG => TCGTab.addTCGAccelerator
  | Backend.HAXM => HAXMTab.addHAXAccelerator
  | Backend.HVF => HVFTab.addHVFAccelerator
  | Backend.WHPX => WHPXTab.addWHPXAccelerator

/-- The constructor of a tab class, compiled for platform `p`. -/
def Backend.construct (p : Platform) : Backend → Machine → BackendTab × Machine
  | Backend.KVM => KVMTab.KVMTab
  | Backend.XEN => XENTab.XENTab
  | Backend.TCG => TCGTab.TCGTab p
  | Backend.HAXM => HAXMTab.HAXMTab p
  | Backend.HVF => HVFTab.HVFTab p
  | Backend.WHPX => WHPXTab.WHPXTab

/-! ## User events -/

/-- A user click on the check box of a tab. -/
def BackendTab.click (tab : BackendTab) (machine : Machine) : BackendTab × Machine :=
  let (check, machine) := tab.check.toggle machine
  (⟨tab.backend, check⟩, machine)

/-- A user click on the check box of the tab at position `index` of the tab
widget; when there is no such tab nothing happens. -/
def QTabWidget.click : QTabWidget → Nat → Machine → QTabWidget × Machine
  | [], _, machine => ([], machine)
  | (tab, label) :: tabs, 0, machine =>
      let (tab, machine) := tab.click machine
      ((tab, label) :: tabs, machine)
  | entry :: tabs, index + 1, machine =>
      let (tabs, machine) := QTabWidget.click tabs index machine
      (entry :: tabs, machine)

/-- A user click on the check box of the tab at position `index` of the page. -/
def MachineAcceleratorPage.click (page : QtEmu.MachineAcceleratorPage) (index : Nat)
    (machine : Machine) : QtEmu.MachineAcceleratorPage × Machine :=
  let (tabs, machine) := QTabWidget.click page.m_acceleratorTabWidget index machine
  (⟨tabs⟩, machine)

/-- A finite sequence of user clicks, given by the positions of the tabs
clicked, first click first. -/
def MachineAcceleratorPage.clicks (events : List Nat)
    (state : QtEmu.MachineAcceleratorPage × Machine) : QtEmu.MachineAcceleratorPage × Machine :=
  events.foldl (fun s index => s.1.click index s.2) state

/-! ## Predicates on the tab widget -/

/-- Every tab of the widget has exactly the slot of its class connected. -/
def QTabWidget.Connected (tabs : QTabWidget) : Prop :=
  ∀ e ∈ tabs, e.1.check.toggled = [e.1.backend.slot]

/-- Some tab of the widget has the identifier `id` and its box is checked. -/
def QTabWidget.ShowsChecked (tabs : QTabWidget) (id : String) : Prop :=
  ∃ e ∈ tabs, e.1.backend.identifier = id ∧ e.1.check.checked = true

/-- The invariant of a page with its machine: every tab has the slot of its
class connected, no class occurs twice, and an identifier is in the
accelerator set exactly when a tab shows it checked. -/
def MachineAcceleratorPage.Mirrors (state : QtEmu.MachineAcceleratorPage × Machine) : Prop :=
  QTabWidget.Connected state.1.m_acceleratorTabWidget ∧
  (state.1.m_acceleratorTabWidget.map (fun e => e.1.backend)).Nodup ∧
  ∀ id, id ∈ state.2.accelerator ↔ QTabWidget.ShowsChecked state.1.m_acceleratorTabWidget id

/-! ## Basic facts about the collaborator model and the slots -/

@[simp] theorem Machine.mem_addAccelerator (machine : Machine) (accel id : String) :
    id ∈ (machine.addAccelerator accel).accelerator ↔ id = accel ∨ id ∈ machine.accelerator := by
  simp [Machine.addAccelerator]

@[simp] theorem Machine.mem_removeAccelerator (machine : Machine) (accel id : String) :
    id ∈ (machine.removeAccelerator accel).accelerator ↔ id ≠ accel ∧ id ∈ machine.accelerator := by
  simp [Machine.removeAccelerator]

/-- Every slot adds or removes the identifier of its own class. -/
theorem Backend.slot_eq (k : Backend) (b : Bool) (machine : Machine) :
    k.slot b machine =
      if b then machine.addAccelerator k.identifier else machine.removeAccelerator k.identifier := by
  cases k <;> rfl

/-- Membership after a slot ran: its own identifier follows the argument, any
other identifier keeps its membership. -/
theorem Backend.mem_slot (k : Backend) (b : Bool) (machine : Machine) (id : String) :
    id ∈ (k.slot b machine).accelerator ↔
      if id = k.identifier then b = true else id ∈ machine.accelerator := by
  rw [Backend.slot_eq]
  cases b <;> by_cases h : id = k.identifier <;> simp [h]

/-- Distinct classes use distinct identifiers. -/
theorem Backend.identifier_injective (k₁ k₂ : Backend)
    (h : k₁.identifier = k₂.identifier) : k₁ = k₂ := by
  cases k₁ <;> cases k₂ <;> first | rfl | (exact absurd h (by decide))

/-- The signal reaches a connected slot: had a box been connected before
`setChecked(true)`, the slot would have run with `true`. -/
theorem QCheckBox.setChecked_runs_connected (slot : Bool → Machine → Machine)
    (machine : Machine) :
    ((QCheckBox.new.connect slot).setChecked true machine).2 = slot true machine := by
  rfl

/-! ## The claims -/

/-- C1: for each of the six tabs, every boolean `b` and every machine state,
the tab's toggle slot called with `b` makes exactly one call on the machine,
appended to the record of calls: `addAccelerator(id)` when `b` is true and
`removeAccelerator(id)` when `b` is false, with `id` the tab's own token
("kvm", "xen", "tcg", "hax", "hvf", "whpx"); the resulting machine is the
result of that one call. -/
theorem C1_slot_makes_one_call (b : Bool) (m : Machine) :
    ((KVMTab.addKVMAccelerator b m).calls =
        m.calls ++ [if b then MachineCall.addAccelerator "kvm"
                    else MachineCall.removeAccelerator "kvm"] ∧
      KVMTab.addKVMAccelerator b m =
        if b then m.addAccelerator "kvm" else m.removeAccelerator "kvm") ∧
    ((XENTab.addXENAccelerator b m).calls =
        m.calls ++ [if b then MachineCall.addAccelerator "xen"
                    else MachineCall.removeAccelerator "xen"] ∧
      XENTab.addXENAccelerator b m =
        if b then m.addAccelerator "xen" else m.removeAccelerator "xen") ∧
    ((TCGTab.addTCGAccelerator b m).calls =
        m.calls ++ [if b then MachineCall.addAccelerator "tcg"
                    else MachineCall.removeAccelerator "tcg"] ∧
      TCGTab.addTCGAccelerator b m =
        if b then m.addAccelerator "tcg" else m.removeAccelerator "tcg") ∧
    ((HAXMTab.addHAXAccelerator b m).calls =
        m.calls ++ [if b then MachineCall.addAccelerator "hax"
                    else MachineCall.removeAccelerator "hax"] ∧
      HAXMTab.addHAXAccelerator b m =
        if b then m.addAccelerator "hax" else m.removeAccelerator "hax") ∧
    ((HVFTab.addHVFAccelerator b m).calls =
        m.calls ++ [if b then MachineCall.addAccelerator "hvf"
                    else MachineCall.removeAccelerator "hvf"] ∧
      HVFTab.addHVFAccelerator b m =
        if b then m.addAccelerator "hvf" else m.removeAccelerator "hvf") ∧
    ((WHPXTab.addWHPXAccelerator b m).calls =
        m.calls ++ [if b then MachineCall.addAccelerator "whpx"
                    else MachineCall.removeAccelerator "whpx"] ∧
      WHPXTab.addWHPXAccelerator b m =
        if b then m.addAccelerator "whpx" else m.removeAccelerator "whpx") := by
  cases b <;> simp [KVMTab.addKVMAccelerator, XENTab.addXENAccelerator,
    TCGTab.addTCGAccelerator, HAXMTab.addHAXAccelerator, HVFTab.addHVFAccelerator,
    WHPXTab.addWHPXAccelerator, Machine.addAccelerator, Machine.removeAccelerator]

/-- C2: for every platform configuration and every machine, the tabs the page
constructor adds are, in order: KVM then XEN exactly when `Q_OS_LINUX` is
defined, HAXM then WHPX exactly when `Q_OS_WIN` is defined, HVF exactly when
`Q_OS_MACOS` is defined, and finally TCG; TCG is the last tab on every
platform and nothing else is added. -/
theorem C2_page_tabs_in_order (p : Platform) (m : Machine) :
    (MachineAcceleratorPage.MachineAcceleratorPage p m).1.m_acceleratorTabWidget.map
        (fun e => (e.1.backend, e.2)) =
      (if p.Q_OS_LINUX then [(Backend.KVM, "KVM"), (Backend.XEN, "XEN")] else []) ++
      (if p.Q_OS_WIN then [(Backend.HAXM, "HAXM"), (Backend.WHPX, "WHPX")] else []) ++
      (if p.Q_OS_MACOS then [(Backend.HVF, "HVF")] else []) ++
      [(Backend.TCG, "TCG")] ∧
    ((MachineAcceleratorPage.MachineAcceleratorPage p m).1.m_acceleratorTabWidget.map
        (fun e => (e.1.backend, e.2))).getLast? = some (Backend.TCG, "TCG") := by
  obtain ⟨l, w, o, f⟩ := p
  cases l <;> cases w <;> cases o <;> cases f <;> exact ⟨rfl, rfl⟩

/-- The classes of the tabs of the page, whatever the machine: KVM and XEN under
`Q_OS_LINUX`, HAXM and WHPX under `Q_OS_WIN`, HVF under `Q_OS_MACOS`, TCG always. -/
theorem MachineAcceleratorPage.backends (p : Platform) (m : Machine) :
    (MachineAcceleratorPage.MachineAcceleratorPage p m).1.m_acceleratorTabWidget.map
        (fun e => e.1.backend) =
      (if p.Q_OS_LINUX then [Backend.KVM, Backend.XEN] else []) ++
      (if p.Q_OS_WIN then [Backend.HAXM, Backend.WHPX] else []) ++
      (if p.Q_OS_MACOS then [Backend.HVF] else []) ++ [Backend.TCG] := by
  obtain ⟨l, w, o, f⟩ := p
  cases l <;> cases w <;> cases o <;> cases f <;> rfl

/-- Outside the page: the constructors of HAXM and HVF check the box on every
platform but call the slot only under their own macro, so run where that macro
is not defined they leave the box checked with no call made. The page never
does this: its `new HAXMTab` and `new HVFTab` are under the same macro. -/
theorem HAXMTab.checked_without_call_outside_own_platform :
    ((HAXMTab.HAXMTab Platform.linux Machine.empty).1.check.checked = true ∧
      (HAXMTab.HAXMTab Platform.linux Machine.empty).2.calls = []) ∧
    ((HVFTab.HVFTab Platform.linux Machine.empty).1.check.checked = true ∧
      (HVFTab.HVFTab Platform.linux Machine.empty).2.calls = []) := by
  decide

/-- C3: for every platform configuration and every tab class the page of that
configuration constructs, and every machine whose accelerator set is empty: a
constructor that leaves the box checked has made the call
`addAccelerator(id)` with the identifier of its tab during construction (it is
the one call made), and immediately after construction the box is checked
exactly when the identifier is in the accelerator set of the machine. -/
theorem C3_checked_iff_selected (p : Platform) (k : Backend) (m : Machine)
    (hk : k ∈ (MachineAcceleratorPage.MachineAcceleratorPage p m).1.m_acceleratorTabWidget.map
      (fun e => e.1.backend))
    (hm : m.accelerator = ∅) :
    ((k.construct p m).1.check.checked = true →
      (k.construct p m).2.calls = m.calls ++ [MachineCall.addAccelerator k.identifier]) ∧
    ((k.construct p m).1.check.checked = true ↔
      k.identifier ∈ (k.construct p m).2.accelerator) := by
  rw [MachineAcceleratorPage.backends] at hk
  obtain ⟨l, w, o, f⟩ := p
  obtain ⟨acc, calls⟩ := m
  simp only at hm
  subst hm
  cases k <;> cases l <;> cases w <;> cases o <;> cases f <;>
    first
      | exact absurd hk (by decide)
      | simp [Backend.construct, Backend.identifier, KVMTab.KVMTab, XENTab.XENTab,
          TCGTab.TCGTab, HAXMTab.HAXMTab, HVFTab.HVFTab, WHPXTab.WHPXTab,
          KVMTab.addKVMAccelerator, TCGTab.addTCGAccelerator, HAXMTab.addHAXAccelerator,
          HVFTab.addHVFAccelerator, Machine.addAccelerator, QCheckBox.setChecked,
          QCheckBox.new, QCheckBox.connect]

/-- C3 (witness): the statement at the HAXM tab of a Windows build over the
empty machine. -/
theorem C3_checked_iff_selected_witness :
    Backend.HAXM ∈ (MachineAcceleratorPage.MachineAcceleratorPage Platform.windows
        Machine.empty).1.m_acceleratorTabWidget.map (fun e => e.1.backend) ∧
    Machine.empty.accelerator = ∅ ∧
    (Backend.HAXM.construct Platform.windows Machine.empty).1.check.checked = true ∧
    (Backend.HAXM.construct Platform.windows Machine.empty).2.calls =
      Machine.empty.calls ++ [MachineCall.addAccelerator "hax"] ∧
    "hax" ∈ (Backend.HAXM.construct Platform.windows Machine.empty).2.accelerator :=
  have h := C3_checked_iff_selected Platform.windows Backend.HAXM Machine.empty
    (by decide) rfl
  ⟨by decide, rfl, by decide, h.1 (by decide), h.2.1 (by decide)⟩

/-- C4: for every initial machine state, constructing the KVM tab yields an
accelerator set that contains "kvm", with the KVM box checked; and the page
constructed on a Linux build yields a set containing "kvm" with the first tab
being the KVM tab, checked. -/
theorem C4_kvm_selected_after_construction (m : Machine) :
    ("kvm" ∈ (KVMTab.KVMTab m).2.accelerator ∧
      (KVMTab.KVMTab m).1.check.checked = true) ∧
    ("kvm" ∈ (MachineAcceleratorPage.MachineAcceleratorPage Platform.linux m).2.accelerator ∧
      ((MachineAcceleratorPage.MachineAcceleratorPage Platform.linux m).1.m_acceleratorTabWidget.map
        (fun e => (e.1.backend, e.1.check.checked))).head? = some (Backend.KVM, true)) := by
  refine ⟨⟨?_, rfl⟩, ?_, rfl⟩
  · simp [KVMTab.KVMTab, KVMTab.addKVMAccelerator, QCheckBox.setChecked, QCheckBox.new]
  · simp [MachineAcceleratorPage.MachineAcceleratorPage, Platform.linux, KVMTab.KVMTab,
      KVMTab.addKVMAccelerator, QCheckBox.setChecked, QCheckBox.new, XENTab.XENTab,
      TCGTab.TCGTab]

/-- C5: the XEN constructor leaves its box unchecked and makes no call on the
machine: the machine is returned as it was given, with the same record of
calls and the same accelerator set, so "xen" is in the set afterwards exactly
when it was before; built over a machine with an empty accelerator set, the
set does not contain "xen". -/
theorem C5_xen_not_selected_after_construction (m : Machine) :
    (XENTab.XENTab m).1.check.checked = false ∧
    (XENTab.XENTab m).2 = m ∧
    (XENTab.XENTab m).2.calls = m.calls ∧
    ("xen" ∈ (XENTab.XENTab m).2.accelerator ↔ "xen" ∈ m.accelerator) ∧
    "xen" ∉ (XENTab.XENTab Machine.empty).2.accelerator := by
  refine ⟨rfl, rfl, rfl, Iff.rfl, by decide⟩

/-- C10: in every constructor the box is checked before the `toggled` signal
is connected, so the signal reaches no slot during construction. The calls
made on the machine during construction are: KVM exactly one
`addAccelerator("kvm")`; HAXM exactly one `addAccelerator("hax")` on Windows
(none elsewhere); HVF exactly one `addAccelerator("hvf")` on macOS (none
elsewhere); TCG exactly one `addAccelerator("tcg")` on FreeBSD and none
elsewhere; XEN and WHPX none. No constructor calls `removeAccelerator`, and
each constructor returns its box with exactly its own slot connected. -/
theorem C10_construction_calls (p : Platform) (m : Machine) :
    ((KVMTab.KVMTab m).2.calls = m.calls ++ [MachineCall.addAccelerator "kvm"] ∧
      (KVMTab.KVMTab m).1.check.toggled = [KVMTab.addKVMAccelerator]) ∧
    ((HAXMTab.HAXMTab p m).2.calls =
        m.calls ++ (if p.Q_OS_WIN then [MachineCall.addAccelerator "hax"] else []) ∧
      (HAXMTab.HAXMTab p m).1.check.toggled = [HAXMTab.addHAXAccelerator]) ∧
    ((HVFTab.HVFTab p m).2.calls =
        m.calls ++ (if p.Q_OS_MACOS then [MachineCall.addAccelerator "hvf"] else []) ∧
      (HVFTab.HVFTab p m).1.check.toggled = [HVFTab.addHVFAccelerator]) ∧
    ((TCGTab.TCGTab p m).2.calls =
        m.calls ++ (if p.Q_OS_FREEBSD then [MachineCall.addAccelerator "tcg"] else []) ∧
      (TCGTab.TCGTab p m).1.check.toggled = [TCGTab.addTCGAccelerator]) ∧
    ((XENTab.XENTab m).2.calls = m.calls ∧
      (XENTab.XENTab m).1.check.toggled = [XENTab.addXENAccelerator]) ∧
    ((WHPXTab.WHPXTab m).2.calls = m.calls ∧
      (WHPXTab.WHPXTab m).1.check.toggled = [WHPXTab.addWHPXAccelerator]) := by
  obtain ⟨l, w, o, f⟩ := p
  refine ⟨⟨rfl, rfl⟩, ⟨?_, ?_⟩, ⟨?_, ?_⟩, ⟨?_, ?_⟩, ⟨rfl, rfl⟩, ⟨rfl, rfl⟩⟩
  · cases w <;> simp [HAXMTab.HAXMTab, HAXMTab.addHAXAccelerator, Machine.addAccelerator,
      QCheckBox.setChecked, QCheckBox.new]
  · cases w <;> rfl
  · cases o <;> simp [HVFTab.HVFTab, HVFTab.addHVFAccelerator, Machine.addAccelerator,
      QCheckBox.setChecked, QCheckBox.new]
  · cases o <;> rfl
  · cases f <;> simp [TCGTab.TCGTab, TCGTab.addTCGAccelerator, Machine.addAccelerator,
      QCheckBox.setChecked, QCheckBox.new]
  · cases f <;> rfl

/-- C6 (counterexample): with "kvm" already in the set, running the KVM slot
with `true` and then with `false` does not give back the set it started from. -/
theorem C6_round_trip_changes_set :
    (KVMTab.addKVMAccelerator false
        (KVMTab.addKVMAccelerator true ⟨{"kvm"}, []⟩)).accelerator ≠ {"kvm"} := by
  decide

/-- C6 (amended): for every tab class with identifier `x` and every starting
machine, running the slot with `true` and then with `false` leaves the set
equal to the starting set with `x` removed; the result excludes `x`, and it
equals the starting set exactly when `x` was not in it. -/
theorem C6_round_trip_erases (k : Backend) (m : Machine) :
    (k.slot false (k.slot true m)).accelerator = m.accelerator.erase k.identifier ∧
    k.identifier ∉ (k.slot false (k.slot true m)).accelerator ∧
    ((k.slot false (k.slot true m)).accelerator = m.accelerator ↔
      k.identifier ∉ m.accelerator) := by
  have h : (k.slot false (k.slot true m)).accelerator = m.accelerator.erase k.identifier := by
    ext id
    simp only [Backend.mem_slot, Finset.mem_erase]
    by_cases hid : id = k.identifier <;> simp [hid]
  refine ⟨h, ?_, ?_⟩
  · rw [h]; exact Finset.not_mem_erase _ _
  · rw [h]; exact Finset.erase_eq_self

/-- C7: for every starting machine, WHPX on, then HVF on, then WHPX off gives
the starting set without "whpx" and with "hvf", which is {"hvf"} from the
empty set; a slot leaves the membership of every identifier other than its
own as it was; and the slots of two distinct tab classes commute on the
accelerator set. -/
theorem C7_panels_independent (k₁ k₂ : Backend) (hk : k₁ ≠ k₂) (b₁ b₂ : Bool) (m : Machine) :
    (WHPXTab.addWHPXAccelerator false (HVFTab.addHVFAccelerator true
        (WHPXTab.addWHPXAccelerator true m))).accelerator =
      (m.accelerator \ {"whpx"}) ∪ {"hvf"} ∧
    (WHPXTab.addWHPXAccelerator false (HVFTab.addHVFAccelerator true
        (WHPXTab.addWHPXAccelerator true Machine.empty))).accelerator = {"hvf"} ∧
    (∀ id : String, id ≠ k₁.identifier →
      (id ∈ (k₁.slot b₁ m).accelerator ↔ id ∈ m.accelerator)) ∧
    (k₁.slot b₁ (k₂.slot b₂ m)).accelerator = (k₂.slot b₂ (k₁.slot b₁ m)).accelerator := by
  refine ⟨?_, by decide, ?_, ?_⟩
  · ext id
    have e₁ : (WHPXTab.addWHPXAccelerator false (HVFTab.addHVFAccelerator true
        (WHPXTab.addWHPXAccelerator true m))) =
        Backend.WHPX.slot false (Backend.HVF.slot true (Backend.WHPX.slot true m)) := rfl
    rw [e₁]
    simp only [Backend.mem_slot, Backend.identifier, Finset.mem_union, Finset.mem_sdiff,
      Finset.mem_singleton]
    by_cases h₁ : id = "whpx"
    · subst h₁; simp
    · by_cases h₂ : id = "hvf"
      · subst h₂; simp
      · simp [h₁, h₂]
  · intro id hid
    simp [Backend.mem_slot, hid]
  · have hne : k₁.identifier ≠ k₂.identifier := fun h => hk (Backend.identifier_injective _ _ h)
    ext id
    simp only [Backend.mem_slot]
    by_cases h₁ : id = k₁.identifier
    · have h₂ : id ≠ k₂.identifier := fun h => hne (h₁ ▸ h)
      simp [h₁, hne]
    · simp [h₁]

/-- C7 (witness): the statement at WHPX and HVF over the empty machine. -/
theorem C7_panels_independent_witness :
    Backend.WHPX ≠ Backend.HVF ∧
    (∀ id : String, id ≠ Backend.WHPX.identifier →
      (id ∈ (Backend.WHPX.slot true Machine.empty).accelerator ↔
        id ∈ Machine.empty.accelerator)) ∧
    (Backend.WHPX.slot true (Backend.HVF.slot false Machine.empty)).accelerator =
      (Backend.HVF.slot false (Backend.WHPX.slot true Machine.empty)).accelerator :=
  ⟨by decide,
    (C7_panels_independent Backend.WHPX Backend.HVF (by decide) true false Machine.empty).2.2⟩

/-- C8: the page constructed over a machine with an empty accelerator set
yields, before any click, the set {"kvm" if Linux} ∪ {"hax" if Windows} ∪
{"hvf" if macOS} ∪ {"tcg" if FreeBSD}, which is the set of identifiers of the
checked tabs of the page: {"kvm"} on Linux, {"hax"} on Windows, {"hvf"} on
macOS, {"tcg"} on FreeBSD, empty on a platform with none of the four macros.
"xen" and "whpx" are never in it and "tcg" is in it on FreeBSD only; the
boxes of the page are: KVM checked, XEN unchecked, HAXM checked, WHPX
unchecked, HVF checked, and TCG checked on FreeBSD only. -/
theorem C8_default_enabled_policy (p : Platform) :
    (MachineAcceleratorPage.MachineAcceleratorPage p Machine.empty).2.accelerator =
      (if p.Q_OS_LINUX then {"kvm"} else ∅) ∪ (if p.Q_OS_WIN then {"hax"} else ∅) ∪
      (if p.Q_OS_MACOS then {"hvf"} else ∅) ∪ (if p.Q_OS_FREEBSD then {"tcg"} else ∅) ∧
    (MachineAcceleratorPage.MachineAcceleratorPage p Machine.empty).2.accelerator =
      (((MachineAcceleratorPage.MachineAcceleratorPage p Machine.empty).1.m_acceleratorTabWidget.filter
        (fun e => e.1.check.checked)).map (fun e => e.1.backend.identifier)).toFinset ∧
    ((MachineAcceleratorPage.MachineAcceleratorPage Platform.linux Machine.empty).2.accelerator
        = {"kvm"} ∧
      (MachineAcceleratorPage.MachineAcceleratorPage Platform.windows Machine.empty).2.accelerator
        = {"hax"} ∧
      (MachineAcceleratorPage.MachineAcceleratorPage Platform.macos Machine.empty).2.accelerator
        = {"hvf"} ∧
      (MachineAcceleratorPage.MachineAcceleratorPage Platform.freebsd Machine.empty).2.accelerator
        = {"tcg"} ∧
      (MachineAcceleratorPage.MachineAcceleratorPage Platform.other Machine.empty).2.accelerator
        = ∅) ∧
    ("xen" ∉ (MachineAcceleratorPage.MachineAcceleratorPage p Machine.empty).2.accelerator ∧
      "whpx" ∉ (MachineAcceleratorPage.MachineAcceleratorPage p Machine.empty).2.accelerator ∧
      ("tcg" ∈ (MachineAcceleratorPage.MachineAcceleratorPage p Machine.empty).2.accelerator ↔
        p.Q_OS_FREEBSD = true)) ∧
    (MachineAcceleratorPage.MachineAcceleratorPage p Machine.empty).1.m_acceleratorTabWidget.map
        (fun e => (e.1.backend, e.1.check.checked)) =
      (if p.Q_OS_LINUX then [(Backend.KVM, true), (Backend.XEN, false)] else []) ++
      (if p.Q_OS_WIN then [(Backend.HAXM, true), (Backend.WHPX, false)] else []) ++
      (if p.Q_OS_MACOS then [(Backend.HVF, true)] else []) ++
      [(Backend.TCG, p.Q_OS_FREEBSD)] := by
  obtain ⟨l, w, o, f⟩ := p
  cases l <;> cases w <;> cases o <;> cases f <;> decide

/-! ## Clicks on a page -/

/-- A click on a tab whose box has the slot of its class connected flips the
box and runs the slot with the new value. -/
theorem BackendTab.click_eq (tab : BackendTab) (machine : Machine)
    (h : tab.check.toggled = [tab.backend.slot]) :
    tab.click machine =
      (⟨tab.backend, ⟨!tab.check.checked, [tab.backend.slot]⟩⟩,
        tab.backend.slot (!tab.check.checked) machine) := by
  obtain ⟨k, c, t⟩ := tab
  simp only at h
  subst h
  cases c <;> rfl

theorem QTabWidget.showsChecked_cons (e : BackendTab × String) (tabs : QTabWidget)
    (id : String) :
    QTabWidget.ShowsChecked (e :: tabs) id ↔
      (e.1.backend.identifier = id ∧ e.1.check.checked = true) ∨
        QTabWidget.ShowsChecked tabs id := by
  simp [QTabWidget.ShowsChecked]

/-- What a click on the widget does: either nothing (no tab at that position),
or one tab class `k` of the widget had its slot run with a value `b` and is
now shown with `b`, every other identifier being shown as before. The slots
connected and the classes of the tabs stay as they were. -/
theorem QTabWidget.click_spec (tabs : QTabWidget) (index : Nat) (machine : Machine)
    (hc : QTabWidget.Connected tabs)
    (hn : (tabs.map (fun e => e.1.backend)).Nodup) :
    QTabWidget.Connected (QTabWidget.click tabs index machine).1 ∧
    (QTabWidget.click tabs index machine).1.map (fun e => e.1.backend) =
      tabs.map (fun e => e.1.backend) ∧
    (QTabWidget.click tabs index machine = (tabs, machine) ∨
      ∃ k b, k ∈ tabs.map (fun e => e.1.backend) ∧
        (QTabWidget.click tabs index machine).2 = k.slot b machine ∧
        ∀ id, QTabWidget.ShowsChecked (QTabWidget.click tabs index machine).1 id ↔
          if id = k.identifier then b = true else QTabWidget.ShowsChecked tabs id) := by
  induction tabs generalizing index machine with
  | nil => exact ⟨hc, rfl, Or.inl rfl⟩
  | cons e tabs ih =>
    obtain ⟨tab, label⟩ := e
    have hhead : tab.check.toggled = [tab.backend.slot] := hc (tab, label) (by simp)
    have hrest : QTabWidget.Connected tabs := fun e he => hc e (List.mem_cons_of_mem _ he)
    simp only [List.map_cons, List.nodup_cons] at hn
    obtain ⟨hnot, hn⟩ := hn
    cases index with
    | zero =>
      have hclick : QTabWidget.click ((tab, label) :: tabs) 0 machine =
          ((⟨tab.backend, ⟨!tab.check.checked, [tab.backend.slot]⟩⟩, label) :: tabs,
            tab.backend.slot (!tab.check.checked) machine) := by
        simp [QTabWidget.click, BackendTab.click_eq tab machine hhead]
      rw [hclick]
      refine ⟨?_, rfl, Or.inr ⟨tab.backend, !tab.check.checked, by simp, rfl, ?_⟩⟩
      · intro e he
        rcases List.mem_cons.1 he with rfl | he
        · rfl
        · exact hrest e he
      · intro id
        rw [QTabWidget.showsChecked_cons, QTabWidget.showsChecked_cons]
        by_cases hid : id = tab.backend.identifier
        · subst hid
          have : ¬ QTabWidget.ShowsChecked tabs tab.backend.identifier := by
            rintro ⟨e, he, hident, -⟩
            exact hnot (List.mem_map.2 ⟨e, he, Backend.identifier_injective _ _ hident⟩)
          simp [this]
        · have hid2 : ¬ tab.backend.identifier = id := fun h => hid h.symm
          simp [hid, hid2]
    | succ index =>
      obtain ⟨ihc, ihm, ihs⟩ := ih index machine hrest hn
      have hclick : QTabWidget.click ((tab, label) :: tabs) (index + 1) machine =
          ((tab, label) :: (QTabWidget.click tabs index machine).1,
            (QTabWidget.click tabs index machine).2) := by
        simp [QTabWidget.click]
      rw [hclick]
      refine ⟨?_, by simp [ihm], ?_⟩
      · intro e he
        rcases List.mem_cons.1 he with rfl | he
        · exact hhead
        · exact ihc e he
      · rcases ihs with hsame | ⟨k, b, hk, hm, hs⟩
        · left; rw [hsame]
        · right
          refine ⟨k, b, by simp [hk], hm, ?_⟩
          intro id
          rw [QTabWidget.showsChecked_cons, QTabWidget.showsChecked_cons, hs id]
          by_cases hid : id = k.identifier
          · subst hid
            have hne : ¬ tab.backend.identifier = k.identifier := by
              intro h
              exact hnot (Backend.identifier_injective _ _ h ▸ hk)
            simp [hne]
          · simp [hid]

/-- A click keeps the invariant. -/
theorem MachineAcceleratorPage.mirrors_click (state : QtEmu.MachineAcceleratorPage × Machine)
    (index : Nat) (h : MachineAcceleratorPage.Mirrors state) :
    MachineAcceleratorPage.Mirrors (state.1.click index state.2) := by
  obtain ⟨⟨tabs⟩, machine⟩ := state
  obtain ⟨hc, hn, hm⟩ := h
  obtain ⟨hc', hmap, hs⟩ := QTabWidget.click_spec tabs index machine hc hn
  refine ⟨hc', ?_, ?_⟩
  · show ((QTabWidget.click tabs index machine).1.map (fun e => e.1.backend)).Nodup
    rw [hmap]; exact hn
  · intro id
    show id ∈ (QTabWidget.click tabs index machine).2.accelerator ↔
      QTabWidget.ShowsChecked (QTabWidget.click tabs index machine).1 id
    rcases hs with hsame | ⟨k, b, -, hmach, hshow⟩
    · rw [hsame]; exact hm id
    · rw [hmach, hshow id, Backend.mem_slot]
      by_cases hid : id = k.identifier
      · simp [hid]
      · simp only [hid, if_false]; exact hm id

/-- A sequence of clicks keeps the invariant. -/
theorem MachineAcceleratorPage.mirrors_clicks (events : List Nat)
    (state : QtEmu.MachineAcceleratorPage × Machine)
    (h : MachineAcceleratorPage.Mirrors state) :
    MachineAcceleratorPage.Mirrors (MachineAcceleratorPage.clicks events state) := by
  induction events generalizing state with
  | nil => exact h
  | cons index events ih =>
    exact ih _ (MachineAcceleratorPage.mirrors_click state index h)

/-- An identifier is shown checked exactly when it is among the identifiers of
the checked tabs. -/
theorem QTabWidget.showsChecked_iff (tabs : QTabWidget) (id : String) :
    QTabWidget.ShowsChecked tabs id ↔
      id ∈ ((tabs.filter (fun e => e.1.check.checked)).map
        (fun e => e.1.backend.identifier)).toFinset := by
  simp only [QTabWidget.ShowsChecked, List.mem_toFinset, List.mem_map, List.mem_filter]
  constructor
  · rintro ⟨e, he, hid, hch⟩
    exact ⟨e, ⟨he, hch⟩, hid⟩
  · rintro ⟨e, ⟨he, hch⟩, hid⟩
    exact ⟨e, he, hid, hch⟩

/-- The page constructed over the empty machine satisfies the invariant, on
every platform. -/
theorem MachineAcceleratorPage.mirrors_initial (p : Platform) :
    MachineAcceleratorPage.Mirrors
      (MachineAcceleratorPage.MachineAcceleratorPage p Machine.empty) := by
  refine ⟨?_, ?_, ?_⟩
  · obtain ⟨l, w, o, f⟩ := p
    intro e he
    cases l <;> cases w <;> cases o <;> cases f <;>
      simp [MachineAcceleratorPage.MachineAcceleratorPage, QTabWidget.addTab, KVMTab.KVMTab,
        XENTab.XENTab, TCGTab.TCGTab, HAXMTab.HAXMTab, HVFTab.HVFTab, WHPXTab.WHPXTab,
        QCheckBox.setChecked, QCheckBox.new, QCheckBox.connect] at he <;>
      (first
        | (subst he; rfl)
        | (rcases he with rfl | rfl <;> rfl)
        | (rcases he with rfl | rfl | rfl <;> rfl)
        | (rcases he with rfl | rfl | rfl | rfl <;> rfl)
        | (rcases he with rfl | rfl | rfl | rfl | rfl <;> rfl)
        | (rcases he with rfl | rfl | rfl | rfl | rfl | rfl <;> rfl))
  · obtain ⟨l, w, o, f⟩ := p
    cases l <;> cases w <;> cases o <;> cases f <;> decide
  · intro id
    rw [QTabWidget.showsChecked_iff]
    have h : (MachineAcceleratorPage.MachineAcceleratorPage p Machine.empty).2.accelerator =
        (((MachineAcceleratorPage.MachineAcceleratorPage p
          Machine.empty).1.m_acceleratorTabWidget.filter
          (fun e => e.1.check.checked)).map (fun e => e.1.backend.identifier)).toFinset := by
      obtain ⟨l, w, o, f⟩ := p
      cases l <;> cases w <;> cases o <;> cases f <;> decide
    rw [h]

/-- C9: on every platform, starting from the page constructed over a machine
with an empty accelerator set, after every finite sequence of clicks on the
boxes of the page (each click flips one box and runs the slot of its tab with
the new value), an identifier is in the accelerator set of the machine if and
only if the page has a tab with that identifier whose box is checked. -/
theorem C9_mirror_invariant (p : Platform) (events : List Nat) (id : String) :
    id ∈ (MachineAcceleratorPage.clicks events
        (MachineAcceleratorPage.MachineAcceleratorPage p Machine.empty)).2.accelerator ↔
      ∃ e ∈ (MachineAcceleratorPage.clicks events
          (MachineAcceleratorPage.MachineAcceleratorPage p
            Machine.empty)).1.m_acceleratorTabWidget,
        e.1.backend.identifier = id ∧ e.1.check.checked = true :=
  (MachineAcceleratorPage.mirrors_clicks events _
    (MachineAcceleratorPage.mirrors_initial p)).2.2 id

end QtEmu
